import Mathlib

/-!
Verification of the Maji Ndogo field-data pipeline
(`data_ingestion.py` and `field_data_processor.py`).

The pipeline works on in-memory tabular data (pandas DataFrames).  We embed
a DataFrame as an ordered list of named columns, each an ordered list of
cell values.  Cell values are integers, strings, or the missing marker NaN.
Each Python operation used by the pipeline is translated into an executable
Lean function:

* `dictGet`        — Python dict lookup (later duplicate keys shadow earlier ones);
* `freshTemp`      — the while-loop choosing the temporary column name in
                     `FieldDataProcessor.rename_columns`;
* `rename_columns` — the two successive `DataFrame.rename` calls;
* `apply_corrections` — `df[abs].abs()`, the dict-`get` substitution, and
                     `Series.str.strip` (non-strings become NaN, as pandas does);
* `query_data`     — raises on an empty query result;
* `merge`          — `DataFrame.merge` with default arguments: inner natural
                     join on all shared column names, `MergeError` when there
                     is no shared column;
* `dropColumn`     — `DataFrame.drop(columns=...)`, raising `KeyError` when
                     the label is absent;
* `process`        — the full pipeline of `FieldDataProcessor.process`.
-/

namespace MajiNdogo

/-- A cell value of a tabular dataset: an integer, a string, or the missing
marker (pandas NaN). -/
inductive Value where
  | int (n : Int)
  | str (s : String)
  | nan
deriving DecidableEq

/-- The error outcomes the pipeline can raise: the empty-query `ValueError`
of `query_data`, the `MergeError` of `DataFrame.merge`, the `KeyError` of
column access / `drop`, and the `TypeError` of `Series.abs` on strings. -/
inductive Err where
  | emptyResult
  | mergeError
  | keyError
  | typeError
deriving DecidableEq

/-- A tabular dataset: an ordered list of named columns, each an ordered,
row-aligned list of values. -/
structure Dataset where
  cols : List (String × List Value)
deriving DecidableEq

/-- The column names of a dataset, in order (pandas `df.columns`). -/
def Dataset.names (df : Dataset) : List String :=
  df.cols.map (fun c => c.1)

/-- The number of rows of a dataset (length of the first column, 0 when
there are no columns). -/
def Dataset.numRows (df : Dataset) : Nat :=
  match df.cols with
  | [] => 0
  | c :: _ => c.2.length

/-- Pandas `df.empty`: true when the dataset has no columns or no rows. -/
def Dataset.empty (df : Dataset) : Bool :=
  df.cols.isEmpty || df.cols.all (fun c => c.2.isEmpty)

/-- Column lookup by name, first match (pandas `df[name]` read access;
`none` models the `KeyError` case). -/
def getColList : List (String × List Value) → String → Option (List Value)
  | [], _ => none
  | c :: rest, n => if c.1 = n then some c.2 else getColList rest n

/-- Column lookup on a dataset. -/
def Dataset.getCol (df : Dataset) (n : String) : Option (List Value) :=
  getColList df.cols n

/-- Column assignment `df[name] = values`: replaces the values of an
existing column in place, or appends a new column at the end. -/
def setColList (cols : List (String × List Value)) (n : String)
    (vs : List Value) : List (String × List Value) :=
  if (getColList cols n).isSome then
    cols.map (fun c => if c.1 = n then (n, vs) else c)
  else
    cols ++ [(n, vs)]

/-- Column assignment on a dataset. -/
def Dataset.setCol (df : Dataset) (n : String) (vs : List Value) : Dataset :=
  ⟨setColList df.cols n vs⟩

/-- Python dict lookup for a dict built from the given key/value list: a
later entry with the same key shadows an earlier one, exactly as in a
Python dict literal. -/
def dictGet : List (String × String) → String → Option String
  | [], _ => none
  | e :: rest, k =>
    match dictGet rest k with
    | some v => some v
    | none => if k = e.1 then some e.2 else none

/-- The while-loop body of `rename_columns`: keep appending an underscore
to the candidate temporary name while it occurs among the column names.
`fuel` bounds the number of iterations. -/
def freshTempAux (names : List String) : Nat → String → String
  | 0, t => t
  | fuel + 1, t => if t ∈ names then freshTempAux names fuel (t ++ "_") else t

/-- The temporary column name chosen by `rename_columns`: start from
`"__temp_name_for_swap__"` and append underscores until the name is not a
column name.  `names.length + 1` iterations always suffice
(see `freshTemp_not_mem`). -/
def freshTemp (names : List String) : String :=
  freshTempAux names (names.length + 1) "__temp_name_for_swap__"

/-- `DataFrame.rename(columns=d)`: every column label is looked up in the
dict `d`; labels not in the dict are kept (missing labels raise no error). -/
def renameCols (d : List (String × String)) (df : Dataset) : Dataset :=
  ⟨df.cols.map (fun c => ((dictGet d c.1).getD c.1, c.2))⟩

/-- `FieldDataProcessor.rename_columns`: swap the two configured column
names by renaming `column1 ↦ temp, column2 ↦ column1` and then
`temp ↦ column2`, with `temp` the fresh temporary name. -/
def rename_columns (column1 column2 : String) (df : Dataset) : Dataset :=
  let temp := freshTemp df.names
  renameCols [(temp, column2)] (renameCols [(column1, temp), (column2, column1)] df)

/-- The intended net effect of `rename_columns` on a column label:
`A` and `B` are exchanged, all other labels are unchanged. -/
def swapName (A B n : String) : String :=
  if n = B then A else if n = A then B else n

end MajiNdogo

namespace MajiNdogo

/-! ### Lemmas about the fresh temporary name -/

theorem length_filter_mono {α : Type} (p q : α → Bool)
    (himp : ∀ x, q x = true → p x = true) (l : List α) :
    (l.filter q).length ≤ (l.filter p).length := by
  induction l with
  | nil => simp
  | cons x l ih =>
    by_cases hq : q x = true
    · have hp := himp x hq
      simp [List.filter_cons, hq, hp]
      omega
    · have hq' : q x = false := by
        cases h : q x
        · rfl
        · exact absurd h hq
      simp only [List.filter_cons, hq']
      by_cases hp : p x = true
      · simp [hp]; omega
      · have hp' : p x = false := by
          cases h : p x
          · rfl
          · exact absurd h hp
        simp [hp']; exact ih

theorem length_filter_lt {α : Type} (p q : α → Bool)
    (himp : ∀ x, q x = true → p x = true) (a : α) (l : List α)
    (ha : a ∈ l) (hpa : p a = true) (hqa : q a = false) :
    (l.filter q).length < (l.filter p).length := by
  induction l with
  | nil => cases ha
  | cons x l ih =>
    rcases List.mem_cons.mp ha with h | h
    · subst h
      simp only [List.filter_cons, hpa, hqa, if_true, Bool.false_eq_true,
        if_false, List.length_cons]
      have := length_filter_mono p q himp l
      omega
    · by_cases hq : q x = true
      · have hp := himp x hq
        simp [List.filter_cons, hq, hp]
        exact ih h
      · have hq' : q x = false := by
          cases hc : q x
          · rfl
          · exact absurd hc hq
        simp only [List.filter_cons, hq', Bool.false_eq_true, if_false]
        by_cases hp : p x = true
        · simp only [hp, if_true, List.length_cons]
          have := ih h
          omega
        · have hp' : p x = false := by
            cases hc : p x
            · rfl
            · exact absurd hc hp
          simp only [hp', Bool.false_eq_true, if_false]
          exact ih h

theorem freshTempAux_not_mem (names : List String) (fuel : Nat) (t : String)
    (h : (names.filter (fun c => decide (t.length ≤ c.length))).length < fuel) :
    freshTempAux names fuel t ∉ names := by
  induction fuel generalizing t with
  | zero => omega
  | succ fuel ih =>
    by_cases hmem : t ∈ names
    · rw [freshTempAux, if_pos hmem]
      apply ih
      have hlen : (t ++ "_").length = t.length + 1 := by
        rw [String.length_append]
        rfl
      have hlt : (names.filter (fun c => decide ((t ++ "_").length ≤ c.length))).length
          < (names.filter (fun c => decide (t.length ≤ c.length))).length := by
        apply length_filter_lt _ _ _ t names hmem
        · simp
        · simp [hlen]
        · intro x hx
          simp only [decide_eq_true_eq] at hx ⊢
          omega
      omega
    · rw [freshTempAux, if_neg hmem]
      exact hmem

theorem freshTemp_not_mem (names : List String) : freshTemp names ∉ names := by
  apply freshTempAux_not_mem
  have := List.length_filter_le
    (fun c => decide (("__temp_name_for_swap__".length ≤ c.length))) names
  omega

end MajiNdogo

namespace MajiNdogo

/-! ### The effect of `rename_columns` on the column list -/

theorem Dataset.eq_of_cols (d1 d2 : Dataset) (h : d1.cols = d2.cols) : d1 = d2 := by
  cases d1; cases d2; simpa using h

theorem dictGet_pair (A t B C n : String) :
    dictGet [(A, t), (B, C)] n =
      if n = B then some C else if n = A then some t else none := by
  by_cases h1 : n = B
  · simp [dictGet, h1]
  · by_cases h2 : n = A
    · subst h2
      simp [dictGet, h1]
    · simp [dictGet, h1, h2]

theorem dictGet_single (t B n : String) :
    dictGet [(t, B)] n = if n = t then some B else none := by
  simp [dictGet]

theorem rename_eq_map_swap (df : Dataset) (A B : String)
    (hA : A ∈ df.names) (hB : B ∈ df.names) :
    (rename_columns A B df).cols = df.cols.map (fun c => (swapName A B c.1, c.2)) := by
  have htemp : freshTemp df.names ∉ df.names := freshTemp_not_mem df.names
  have hAt : A ≠ freshTemp df.names := fun h => htemp (h ▸ hA)
  simp only [rename_columns, renameCols, List.map_map]
  apply List.map_congr_left
  intro c hc
  have hcn : c.1 ∈ df.names := List.mem_map_of_mem _ hc
  have hct : c.1 ≠ freshTemp df.names := fun h => htemp (h ▸ hcn)
  simp only [Function.comp, dictGet_pair, dictGet_single]
  by_cases h1 : c.1 = B
  · simp [h1, swapName, hAt]
  · by_cases h2 : c.1 = A
    · have hAB : ¬(A = B) := fun h => h1 (h2.trans h)
      simp [h1, h2, hAB, swapName]
    · simp [h1, h2, swapName, hct]

theorem swapName_self_right (A B : String) : swapName A B B = A := by
  simp [swapName]

theorem swapName_self_left (A B : String) : swapName A B A = B := by
  by_cases hAB : A = B
  · rw [hAB]
    simp [swapName]
  · simp [swapName, hAB]

theorem swapName_invol (A B n : String) : swapName A B (swapName A B n) = n := by
  by_cases hnB : n = B
  · rw [hnB, swapName_self_right, swapName_self_left]
  · by_cases hnA : n = A
    · rw [hnA, swapName_self_left, swapName_self_right]
    · have h1 : swapName A B n = n := by simp [swapName, hnA, hnB]
      rw [h1, h1]

theorem rename_names_eq (df : Dataset) (A B : String)
    (hA : A ∈ df.names) (hB : B ∈ df.names) :
    (rename_columns A B df).names = df.names.map (swapName A B) := by
  rw [Dataset.names, rename_eq_map_swap df A B hA hB, List.map_map,
    Dataset.names, List.map_map]
  rfl

/-- C1: for a dataset containing both columns of the rename pair (A, B),
`rename_columns` swaps the two column identities: every column keeps its
values and its position, the label `A` becomes `B` and vice versa, all other
labels are unchanged, and the internally chosen temporary name never
collides with an existing column name. -/
theorem rename_columns_swaps (df : Dataset) (A B : String)
    (hA : A ∈ df.names) (hB : B ∈ df.names) :
    (rename_columns A B df).cols = df.cols.map (fun c => (swapName A B c.1, c.2)) ∧
    freshTemp df.names ∉ df.names :=
  ⟨rename_eq_map_swap df A B hA hB, freshTemp_not_mem df.names⟩

def c1df : Dataset :=
  ⟨[("Field_ID", [Value.int 1]), ("Plot_ID", [Value.int 2]),
    ("Elevation", [Value.int 3])]⟩

/-- Witness for C1 at the scenario of the spec: columns
`[Field_ID, Plot_ID, Elevation]`, pair `(Field_ID, Plot_ID)`. -/
theorem rename_columns_swaps_witness :
    (rename_columns "Field_ID" "Plot_ID" c1df).cols =
      c1df.cols.map (fun c => (swapName "Field_ID" "Plot_ID" c.1, c.2)) ∧
    freshTemp c1df.names ∉ c1df.names :=
  rename_columns_swaps c1df "Field_ID" "Plot_ID" (by decide) (by decide)

/-- C5: `rename_columns` is an involution on datasets containing both
columns of the pair: applying it twice restores the original dataset. -/
theorem rename_columns_involution (df : Dataset) (A B : String)
    (hA : A ∈ df.names) (hB : B ∈ df.names) :
    rename_columns A B (rename_columns A B df) = df := by
  have h1 := rename_eq_map_swap df A B hA hB
  have hn1 := rename_names_eq df A B hA hB
  have hA1 : A ∈ (rename_columns A B df).names := by
    rw [hn1]
    exact List.mem_map.mpr ⟨B, hB, swapName_self_right A B⟩
  have hB1 : B ∈ (rename_columns A B df).names := by
    rw [hn1]
    exact List.mem_map.mpr ⟨A, hA, swapName_self_left A B⟩
  have h2 := rename_eq_map_swap (rename_columns A B df) A B hA1 hB1
  apply Dataset.eq_of_cols
  rw [h2, h1, List.map_map]
  have hcongr : ∀ c ∈ df.cols,
      ((fun c => (swapName A B c.1, c.2)) ∘ fun c => (swapName A B c.1, c.2)) c = c := by
    intro c hc
    simp [Function.comp, swapName_invol]
  rw [List.map_congr_left hcongr]
  simp

def c5df : Dataset :=
  ⟨[("Field_ID", [Value.int 1]), ("Plot_ID", [Value.int 2]),
    ("Elevation", [Value.int 3]), ("Crop_type", [Value.str "maize"])]⟩

/-- Witness for C5 at a concrete dataset. -/
theorem rename_columns_involution_witness :
    rename_columns "Field_ID" "Plot_ID" (rename_columns "Field_ID" "Plot_ID" c5df) = c5df :=
  rename_columns_involution c5df "Field_ID" "Plot_ID" (by decide) (by decide)

end MajiNdogo

namespace MajiNdogo

/-! ### C8: behaviour of `rename_columns` when a column of the pair is absent.
`DataFrame.rename` silently ignores labels that are not present, so no
error is raised; instead a one-directional partial rename happens. -/

def c8df : Dataset := ⟨[("Field_ID", [Value.int 1]), ("Elevation", [Value.int 2])]⟩

/-- C8 counterexample: for the dataset with columns `[Field_ID, Elevation]`
and the pair `(Field_ID, Plot_ID)`, the second column of the pair is absent,
yet `rename_columns` completes without any error and renames `Field_ID` to
`Plot_ID`, contradicting the claim that it must fail. -/
theorem rename_columns_missing_counterexample :
    "Plot_ID" ∉ c8df.names ∧
    rename_columns "Field_ID" "Plot_ID" c8df =
      ⟨[("Plot_ID", [Value.int 1]), ("Elevation", [Value.int 2])]⟩ := by
  decide

/-- C8 amended: when either column of the pair `(A, B)` is absent,
`rename_columns` completes without error instead of failing: if `A` is
present and `B` absent, `A` is simply renamed to `B` (a one-directional
partial rename, values and order untouched); symmetrically, if `B` is
present and `A` absent, `B` is renamed to `A` — except in the edge case
where `A` equals the internally chosen temporary name, in which case the
two renames cancel and the dataset is unchanged; if both are absent the
dataset is returned unchanged. -/
theorem rename_columns_missing (df : Dataset) (A B : String) :
    (A ∈ df.names → B ∉ df.names →
      (rename_columns A B df).cols =
        df.cols.map (fun c => (if c.1 = A then B else c.1, c.2))) ∧
    (A ∉ df.names → B ∈ df.names → A ≠ freshTemp df.names →
      (rename_columns A B df).cols =
        df.cols.map (fun c => (if c.1 = B then A else c.1, c.2))) ∧
    (A ∉ df.names → B ∈ df.names → A = freshTemp df.names →
      rename_columns A B df = df) ∧
    (A ∉ df.names → B ∉ df.names → rename_columns A B df = df) := by
  have htemp : freshTemp df.names ∉ df.names := freshTemp_not_mem df.names
  refine ⟨?_, ?_, ?_, ?_⟩
  · intro hA hB
    have hAB : ¬(A = B) := fun h => hB (h ▸ hA)
    simp only [rename_columns, renameCols, List.map_map]
    apply List.map_congr_left
    intro c hc
    have hcn : c.1 ∈ df.names := List.mem_map_of_mem _ hc
    have hct : c.1 ≠ freshTemp df.names := fun h => htemp (h ▸ hcn)
    have hcB : ¬(c.1 = B) := fun h => hB (h ▸ hcn)
    simp only [Function.comp, dictGet_pair, dictGet_single]
    by_cases h2 : c.1 = A
    · simp [hcB, h2, hAB]
    · simp [hcB, h2, hct]
  · intro hA hB hAt2
    simp only [rename_columns, renameCols, List.map_map]
    apply List.map_congr_left
    intro c hc
    obtain ⟨n, vs⟩ := c
    have hcn : n ∈ df.names := List.mem_map_of_mem (fun c => c.1) hc
    have hct : n ≠ freshTemp df.names := fun h => htemp (h ▸ hcn)
    have hnA : ¬(n = A) := fun h => hA (h ▸ hcn)
    simp only [Function.comp, dictGet_pair, dictGet_single]
    by_cases hnB : n = B
    · subst hnB
      simp [hAt2]
    · simp [hnB, hnA, hct]
  · intro hA hB hAt3
    apply Dataset.eq_of_cols
    simp only [rename_columns, renameCols, List.map_map]
    have hcongr : ∀ c ∈ df.cols,
        ((fun c => ((dictGet [(freshTemp df.names, B)] c.1).getD c.1, c.2)) ∘
          fun c => ((dictGet [(A, freshTemp df.names), (B, A)] c.1).getD c.1, c.2)) c
          = c := by
      intro c hc
      obtain ⟨n, vs⟩ := c
      have hcn : n ∈ df.names := List.mem_map_of_mem (fun c => c.1) hc
      have hct : n ≠ freshTemp df.names := fun h => htemp (h ▸ hcn)
      have hnA : ¬(n = A) := fun h => hA (h ▸ hcn)
      simp only [Function.comp, dictGet_pair, dictGet_single]
      by_cases hnB : n = B
      · subst hnB
        simp [hAt3]
      · simp [hnB, hnA, hct]
    rw [List.map_congr_left hcongr]
    simp
  · intro hA hB
    apply Dataset.eq_of_cols
    simp only [rename_columns, renameCols, List.map_map]
    have hcongr : ∀ c ∈ df.cols,
        ((fun c => ((dictGet [(freshTemp df.names, B)] c.1).getD c.1, c.2)) ∘
          fun c => ((dictGet [(A, freshTemp df.names), (B, A)] c.1).getD c.1, c.2)) c
          = c := by
      intro c hc
      have hcn : c.1 ∈ df.names := List.mem_map_of_mem _ hc
      have hct : c.1 ≠ freshTemp df.names := fun h => htemp (h ▸ hcn)
      have hcB : ¬(c.1 = B) := fun h => hB (h ▸ hcn)
      have hcA : ¬(c.1 = A) := fun h => hA (h ▸ hcn)
      simp [Function.comp, dictGet_pair, dictGet_single, hcB, hcA, hct]
    rw [List.map_congr_left hcongr]
    simp

/-- Witness for the amended C8 at the counterexample dataset. -/
theorem rename_columns_missing_witness :
    (rename_columns "Field_ID" "Plot_ID" c8df).cols =
      c8df.cols.map (fun c => (if c.1 = "Field_ID" then "Plot_ID" else c.1, c.2)) :=
  (rename_columns_missing c8df "Field_ID" "Plot_ID").1 (by decide) (by decide)

end MajiNdogo

namespace MajiNdogo

/-! ### `apply_corrections`: absolute value, value substitution, strip -/

/-- Python `str.strip()` on the character list: drop leading and trailing
whitespace. -/
def stripChars (l : List Char) : List Char :=
  ((l.dropWhile Char.isWhitespace).reverse.dropWhile Char.isWhitespace).reverse

/-- Python `str.strip()`. -/
def stripString (s : String) : String :=
  ⟨stripChars s.data⟩

/-- The substitution `values_to_rename.get(crop, crop)`: a string value is
looked up in the table (hit → canonical value, miss → unchanged); a
non-string value is never a key of the table, hence unchanged. -/
def substV (table : List (String × String)) : Value → Value
  | Value.str s => Value.str ((dictGet table s).getD s)
  | v => v

/-- Pandas `Series.str.strip()` on a single cell: strings are stripped of
surrounding whitespace, non-string cells become NaN. -/
def stripV : Value → Value
  | Value.str s => Value.str (stripString s)
  | _ => Value.nan

/-- Whether a cell holds a string. -/
def Value.isStr : Value → Bool
  | Value.str _ => true
  | _ => false

/-- Absolute value of a single numeric or missing cell. -/
def absV : Value → Value
  | Value.int n => Value.int n.natAbs
  | v => v

/-- Pandas `Series.abs()`: raises `TypeError` when the column holds a
string, otherwise takes elementwise absolute values (NaN stays NaN). -/
def absColumn (vs : List Value) : Except Err (List Value) :=
  if vs.any Value.isStr then Except.error Err.typeError
  else Except.ok (vs.map absV)

/-- `FieldDataProcessor.apply_corrections`: the three statements
`df[abs_column] = df[abs_column].abs()`,
`df[column_name] = df[column_name].apply(lambda crop: values_to_rename.get(crop, crop))`,
`df[column_name] = df[column_name].str.strip()`.
Each statement first reads the column (`KeyError` when absent), transforms
it, and assigns the result back. -/
def apply_corrections (table : List (String × String))
    (column_name abs_column : String) (df : Dataset) : Except Err Dataset :=
  match df.getCol abs_column with
  | none => Except.error Err.keyError
  | some avs =>
    match absColumn avs with
    | Except.error e => Except.error e
    | Except.ok avs2 =>
      match (df.setCol abs_column avs2).getCol column_name with
      | none => Except.error Err.keyError
      | some cvs =>
        match ((df.setCol abs_column avs2).setCol column_name
            (cvs.map (substV table))).getCol column_name with
        | none => Except.error Err.keyError
        | some cvs2 =>
          Except.ok (((df.setCol abs_column avs2).setCol column_name
            (cvs.map (substV table))).setCol column_name (cvs2.map stripV))

/-! ### Lemmas about column get/set -/

theorem getColList_map_set (cols : List (String × List Value)) (n : String)
    (vs : List Value) :
    getColList (cols.map (fun c => if c.1 = n then (n, vs) else c)) n =
      if (getColList cols n).isSome then some vs else none := by
  induction cols with
  | nil => simp [getColList]
  | cons c rest ih =>
    by_cases hc : c.1 = n
    · simp [getColList, hc]
    · simp [getColList, hc, ih]

theorem getColList_append (l1 l2 : List (String × List Value)) (m : String) :
    getColList (l1 ++ l2) m =
      match getColList l1 m with
      | some v => some v
      | none => getColList l2 m := by
  induction l1 with
  | nil => simp [getColList]
  | cons c rest ih =>
    by_cases hc : c.1 = m
    · simp [getColList, hc]
    · simp [getColList, hc, ih]

theorem getCol_set_self (df : Dataset) (n : String) (vs : List Value) :
    (df.setCol n vs).getCol n = some vs := by
  rw [Dataset.setCol, Dataset.getCol, setColList]
  by_cases h : (getColList df.cols n).isSome
  · rw [if_pos h]
    simp [getColList_map_set, h]
  · rw [if_neg h]
    rw [getColList_append]
    cases hg : getColList df.cols n with
    | none => simp [getColList]
    | some v => rw [hg] at h; simp at h

theorem getColList_map_set_other (cols : List (String × List Value))
    (n m : String) (vs : List Value) (hmn : m ≠ n) :
    getColList (cols.map (fun c => if c.1 = n then (n, vs) else c)) m =
      getColList cols m := by
  induction cols with
  | nil => simp [getColList]
  | cons c rest ih =>
    have hnm : ¬(n = m) := fun h => hmn h.symm
    by_cases hc : c.1 = n
    · simp [getColList, hc, hnm, ih]
    · by_cases hcm : c.1 = m
      · simp [getColList, hc, hcm, hmn, hnm]
      · simp [getColList, hc, hcm, hmn, hnm, ih]

theorem getCol_set_other (df : Dataset) (n m : String) (vs : List Value)
    (hmn : m ≠ n) :
    (df.setCol n vs).getCol m = df.getCol m := by
  rw [Dataset.setCol, Dataset.getCol, Dataset.getCol, setColList]
  by_cases h : (getColList df.cols n).isSome
  · rw [if_pos h]
    exact getColList_map_set_other df.cols n m vs hmn
  · rw [if_neg h]
    rw [getColList_append]
    cases hg : getColList df.cols m with
    | none => simp [getColList, Ne.symm hmn]
    | some v => simp

end MajiNdogo

namespace MajiNdogo

/-! ### C2: the value column after `apply_corrections` -/

/-- C2: for every dataset on which `apply_corrections` succeeds, every value
of the designated value column is first looked up in the substitution table
(hit → the canonical value, miss → unchanged; non-strings are never keys)
and then handed to the strip step; for a string that is a key the column
ends up with the canonical value stripped of surrounding whitespace, for a
string that is not a key only whitespace-stripping is applied. -/
theorem apply_corrections_value_column
    (table : List (String × String)) (vcol acol : String) (df df' : Dataset)
    (vvs : List Value) (hne : vcol ≠ acol)
    (hv : df.getCol vcol = some vvs)
    (h : apply_corrections table vcol acol df = Except.ok df') :
    df'.getCol vcol = some (vvs.map (fun v => stripV (substV table v))) ∧
    (∀ s c, dictGet table s = some c →
      stripV (substV table (Value.str s)) = Value.str (stripString c)) ∧
    (∀ s, dictGet table s = none →
      stripV (substV table (Value.str s)) = Value.str (stripString s)) := by
  refine ⟨?_, ?_, ?_⟩
  · unfold apply_corrections at h
    split at h
    · simp at h
    · next avs ha =>
      split at h
      · simp at h
      · next avs2 habs =>
        split at h
        · simp at h
        · next cvs hc =>
          split at h
          · simp at h
          · next cvs2 hc2 =>
            simp only [Except.ok.injEq] at h
            subst h
            rw [getCol_set_other df acol vcol avs2 hne, hv] at hc
            injection hc with hc
            subst hc
            rw [getCol_set_self] at hc2
            injection hc2 with hc2
            subst hc2
            rw [getCol_set_self, List.map_map]
            rfl
  · intro s c hsc
    simp [substV, stripV, hsc]
  · intro s hs
    simp [substV, stripV, hs]

def c2table : List (String × String) := [("maize", "corn")]

def c2df : Dataset :=
  ⟨[("Elevation", [Value.int (-3)]),
    ("Crop_type", [Value.str " cassaval ", Value.str "maize"])]⟩

def c2out : Dataset :=
  ⟨[("Elevation", [Value.int 3]),
    ("Crop_type", [Value.str "cassaval", Value.str "corn"])]⟩

/-- Witness for C2 at a concrete dataset: the padded non-key string is only
stripped, the key string is substituted by its canonical value. -/
theorem apply_corrections_value_column_witness :
    c2out.getCol "Crop_type" =
      some ([Value.str " cassaval ", Value.str "maize"].map
        (fun v => stripV (substV c2table v))) ∧
    (∀ s c, dictGet c2table s = some c →
      stripV (substV c2table (Value.str s)) = Value.str (stripString c)) ∧
    (∀ s, dictGet c2table s = none →
      stripV (substV c2table (Value.str s)) = Value.str (stripString s)) :=
  apply_corrections_value_column c2table "Crop_type" "Elevation" c2df c2out
    [Value.str " cassaval ", Value.str "maize"]
    (by decide) (by decide) (by rfl)

end MajiNdogo

namespace MajiNdogo

/-! ### C3: the end-to-end correction scenario of the spec -/

def c3table : List (String × String) := [("cassaval", "cassava")]

def c3df : Dataset :=
  ⟨[("Field_ID", [Value.int 1]), ("Elevation", [Value.int (-430)]),
    ("Crop_type", [Value.str " cassaval "])]⟩

/-- C3 counterexample: on the row
`{Field_ID: 1, Elevation: -430, Crop_type: " cassaval "}` with substitution
table `{"cassaval": "cassava"}`, the correction step looks the padded value
up BEFORE stripping, so the lookup misses and the final value is
`"cassaval"`, not `"cassava"` as claimed. -/
theorem apply_corrections_scenario_counterexample :
    apply_corrections c3table "Crop_type" "Elevation" c3df =
      Except.ok ⟨[("Field_ID", [Value.int 1]), ("Elevation", [Value.int 430]),
        ("Crop_type", [Value.str "cassaval"])]⟩ ∧
    Value.str "cassaval" ≠ Value.str "cassava" :=
  ⟨by rfl, by decide⟩

/-- C3 amended: on that row the correction step yields Elevation `430` and
Crop_type exactly `"cassaval"` (the lookup happens before stripping, so the
padded value misses the table and is only whitespace-stripped). -/
theorem apply_corrections_scenario :
    ∃ d, apply_corrections c3table "Crop_type" "Elevation" c3df = Except.ok d ∧
      d.getCol "Elevation" = some [Value.int 430] ∧
      d.getCol "Crop_type" = some [Value.str "cassaval"] :=
  ⟨_, by rfl, by rfl, by rfl⟩

end MajiNdogo

namespace MajiNdogo

/-! ### C9: `apply_corrections` touches only the two designated columns -/

theorem names_map_set (cols : List (String × List Value)) (n : String)
    (vs : List Value) :
    (cols.map (fun c => if c.1 = n then (n, vs) else c)).map (fun c => c.1) =
      cols.map (fun c => c.1) := by
  rw [List.map_map]
  apply List.map_congr_left
  intro c hc
  by_cases h : c.1 = n
  · simp [Function.comp, h]
  · simp [Function.comp, h]

theorem names_setCol_present (df : Dataset) (n : String) (vs : List Value)
    (h : (df.getCol n).isSome) :
    (df.setCol n vs).names = df.names := by
  rw [Dataset.getCol] at h
  rw [Dataset.setCol, Dataset.names, Dataset.names, setColList, if_pos h]
  exact names_map_set df.cols n vs

theorem lengths_map_set (cols : List (String × List Value)) (n : String)
    (vs old : List Value)
    (hnd : (cols.map (fun c => c.1)).Nodup)
    (hold : getColList cols n = some old) (hlen : vs.length = old.length) :
    (cols.map (fun c => if c.1 = n then (n, vs) else c)).map (fun c => c.2.length)
      = cols.map (fun c => c.2.length) := by
  induction cols with
  | nil => simp [getColList] at hold
  | cons c rest ih =>
    simp only [List.map_cons, List.nodup_cons] at hnd
    by_cases hc : c.1 = n
    · have hco : c.2 = old := by
        simp [getColList, hc] at hold
        exact hold
      simp only [List.map_cons]
      rw [if_pos hc]
      have hrest : ∀ e ∈ rest, (if e.1 = n then (n, vs) else e) = e := by
        intro e he
        rw [if_neg]
        intro hen
        exact hnd.1 (hc ▸ hen ▸ List.mem_map_of_mem (fun c => c.1) he)
      have h2 : rest.map (fun e => if e.1 = n then (n, vs) else e) = rest := by
        rw [List.map_congr_left hrest]
        simp
      rw [h2]
      simp [hlen, hco]
    · have hold2 : getColList rest n = some old := by
        simpa [getColList, hc] using hold
      simp only [List.map_cons]
      rw [if_neg hc]
      rw [ih hnd.2 hold2]

theorem lengths_setCol_present (df : Dataset) (n : String) (vs old : List Value)
    (hnd : df.names.Nodup) (hold : df.getCol n = some old)
    (hlen : vs.length = old.length) :
    (df.setCol n vs).cols.map (fun c => c.2.length) =
      df.cols.map (fun c => c.2.length) := by
  rw [Dataset.getCol] at hold
  have hs : (getColList df.cols n).isSome := by
    rw [hold]
    rfl
  rw [Dataset.setCol, setColList, if_pos hs]
  exact lengths_map_set df.cols n vs old hnd hold hlen

theorem numRows_eq_of_lengths (d1 d2 : Dataset)
    (h : d1.cols.map (fun c => c.2.length) = d2.cols.map (fun c => c.2.length)) :
    d1.numRows = d2.numRows := by
  cases h1 : d1.cols with
  | nil =>
    cases h2 : d2.cols with
    | nil => simp [Dataset.numRows, h1, h2]
    | cons c2 t2 => rw [h1, h2] at h; simp at h
  | cons c t =>
    cases h2 : d2.cols with
    | nil => rw [h1, h2] at h; simp at h
    | cons c2 t2 =>
      rw [h1, h2] at h
      simp only [List.map_cons, List.cons.injEq] at h
      simp [Dataset.numRows, h1, h2, h.1]

theorem absColumn_ok (vs vs2 : List Value) (h : absColumn vs = Except.ok vs2) :
    vs2 = vs.map absV := by
  unfold absColumn at h
  split at h
  · simp at h
  · simp only [Except.ok.injEq] at h
    exact h.symm

/-- C9: `apply_corrections` modifies only the designated value column and
the designated magnitude column: whenever it succeeds, the column names are
unchanged, every other column holds exactly its previous values, every
column keeps its length, and the row count is unchanged. -/
theorem apply_corrections_frame
    (table : List (String × String)) (vcol acol : String) (df df' : Dataset)
    (hnd : df.names.Nodup)
    (h : apply_corrections table vcol acol df = Except.ok df') :
    df'.names = df.names ∧
    (∀ m, m ≠ vcol → m ≠ acol → df'.getCol m = df.getCol m) ∧
    df'.cols.map (fun c => c.2.length) = df.cols.map (fun c => c.2.length) ∧
    df'.numRows = df.numRows := by
  unfold apply_corrections at h
  split at h
  · simp at h
  · next avs ha =>
    split at h
    · simp at h
    · next avs2 habs =>
      split at h
      · simp at h
      · next cvs hc =>
        split at h
        · simp at h
        · next cvs2 hc2 =>
          simp only [Except.ok.injEq] at h
          subst h
          have hsa : (df.getCol acol).isSome := by rw [ha]; rfl
          have hsc1 : ((df.setCol acol avs2).getCol vcol).isSome := by rw [hc]; rfl
          have hsc2 : (((df.setCol acol avs2).setCol vcol
              (cvs.map (substV table))).getCol vcol).isSome := by rw [hc2]; rfl
          have hn1 : (df.setCol acol avs2).names = df.names :=
            names_setCol_present df acol avs2 hsa
          have hn2 : ((df.setCol acol avs2).setCol vcol
              (cvs.map (substV table))).names = (df.setCol acol avs2).names :=
            names_setCol_present _ vcol _ hsc1
          have hn3 : (((df.setCol acol avs2).setCol vcol
              (cvs.map (substV table))).setCol vcol (cvs2.map stripV)).names =
              ((df.setCol acol avs2).setCol vcol (cvs.map (substV table))).names :=
            names_setCol_present _ vcol _ hsc2
          have havs2 : avs2 = avs.map absV := absColumn_ok avs avs2 habs
          have hl1 : (df.setCol acol avs2).cols.map (fun c => c.2.length) =
              df.cols.map (fun c => c.2.length) :=
            lengths_setCol_present df acol avs2 avs hnd ha
              (by rw [havs2]; simp)
          have hnd1 : (df.setCol acol avs2).names.Nodup := by rw [hn1]; exact hnd
          have hl2 : ((df.setCol acol avs2).setCol vcol
              (cvs.map (substV table))).cols.map (fun c => c.2.length) =
              (df.setCol acol avs2).cols.map (fun c => c.2.length) :=
            lengths_setCol_present _ vcol _ cvs hnd1 hc (by simp)
          have hnd2 : ((df.setCol acol avs2).setCol vcol
              (cvs.map (substV table))).names.Nodup := by rw [hn2]; exact hnd1
          have hl3 : (((df.setCol acol avs2).setCol vcol
              (cvs.map (substV table))).setCol vcol (cvs2.map stripV)).cols.map
                (fun c => c.2.length) =
              ((df.setCol acol avs2).setCol vcol
                (cvs.map (substV table))).cols.map (fun c => c.2.length) :=
            lengths_setCol_present _ vcol _ cvs2 hnd2 hc2 (by simp)
          have hlen : (((df.setCol acol avs2).setCol vcol
              (cvs.map (substV table))).setCol vcol (cvs2.map stripV)).cols.map
                (fun c => c.2.length) = df.cols.map (fun c => c.2.length) :=
            (hl3.trans hl2).trans hl1
          refine ⟨(hn3.trans hn2).trans hn1, ?_, hlen, ?_⟩
          · intro m hmv hma
            rw [getCol_set_other _ vcol m _ hmv, getCol_set_other _ vcol m _ hmv,
              getCol_set_other _ acol m _ hma]
          · exact numRows_eq_of_lengths _ _ hlen

def c9df : Dataset :=
  ⟨[("Field_ID", [Value.int 7]), ("Elevation", [Value.int (-2)]),
    ("Crop_type", [Value.str " tea "])]⟩

def c9out : Dataset :=
  ⟨[("Field_ID", [Value.int 7]), ("Elevation", [Value.int 2]),
    ("Crop_type", [Value.str "tea"])]⟩

/-- Witness for C9 at a concrete dataset with an untouched `Field_ID`
column. -/
theorem apply_corrections_frame_witness :
    c9out.names = c9df.names ∧
    (∀ m, m ≠ "Crop_type" → m ≠ "Elevation" → c9out.getCol m = c9df.getCol m) ∧
    c9out.cols.map (fun c => c.2.length) = c9df.cols.map (fun c => c.2.length) ∧
    c9out.numRows = c9df.numRows :=
  apply_corrections_frame [] "Crop_type" "Elevation" c9df c9out
    (by decide) (by rfl)

end MajiNdogo

namespace MajiNdogo

/-! ### C4: `query_data` and `ingest_sql_data` on an empty query result -/

/-- `data_ingestion.query_data` applied to the materialized query result:
raises the empty-result error (`ValueError`) when the DataFrame is empty,
otherwise returns it unchanged. -/
def query_data (raw : Dataset) : Except Err Dataset :=
  if raw.empty then Except.error Err.emptyResult else Except.ok raw

/-- `FieldDataProcessor.ingest_sql_data` as a transition on the
orchestrator state `self.df : Option Dataset`: on success the working
dataset is replaced by the query result, on failure the exception
propagates and `self.df` keeps its previous value. -/
def ingestStep (df0 : Option Dataset) (raw : Dataset) :
    Option Dataset × Option Err :=
  match query_data raw with
  | Except.error e => (df0, some e)
  | Except.ok d => (some d, none)

/-- C4: when the query result has zero rows, ingestion raises the
empty-result error and the working dataset (initially unset) remains
unset; moreover `query_data` never returns an empty dataset. -/
theorem ingest_empty_raises (raw : Dataset) (h : ∀ c ∈ raw.cols, c.2 = []) :
    ingestStep none raw = (none, some Err.emptyResult) ∧
    ∀ r d, query_data r = Except.ok d → d.empty = false := by
  constructor
  · have hempty : raw.empty = true := by
      rw [Dataset.empty]
      have : raw.cols.all (fun c => c.2.isEmpty) = true := by
        rw [List.all_eq_true]
        intro c hc
        rw [h c hc]
        rfl
      rw [this]
      simp
    rw [ingestStep, query_data, if_pos hempty]
  · intro r d hrd
    rw [query_data] at hrd
    by_cases he : r.empty
    · rw [if_pos he] at hrd
      simp at hrd
    · rw [if_neg he] at hrd
      simp only [Except.ok.injEq] at hrd
      subst hrd
      simpa using he

/-- Witness for C4 at a concrete zero-row query result. -/
theorem ingest_empty_raises_witness :
    ingestStep none ⟨[("Field_ID", [])]⟩ = (none, some Err.emptyResult) :=
  (ingest_empty_raises ⟨[("Field_ID", [])]⟩ (by decide)).1

end MajiNdogo

namespace MajiNdogo

/-! ### `weather_station_mapping`: `DataFrame.merge` with default arguments -/

/-- Lookup of a cell in a row (list of labelled cells), first match. -/
def rowLookup : List (String × Value) → String → Option Value
  | [], _ => none
  | p :: rest, s => if p.1 = s then some p.2 else rowLookup rest s

/-- The rows of a dataset, each as a list of labelled cells. -/
def toRows (df : Dataset) : List (List (String × Value)) :=
  (List.range df.numRows).map
    (fun i => df.cols.map (fun c => (c.1, c.2.getD i Value.nan)))

/-- The column names shared by two datasets, in left order: the join keys
pandas picks for `merge` with `on=None`. -/
def sharedNames (L R : Dataset) : List String :=
  L.names.filter (fun n => R.names.contains n)

/-- Whether two rows agree on every shared column. -/
def rowsMatch (shared : List String) (lr rr : List (String × Value)) : Bool :=
  shared.all (fun s => decide (rowLookup lr s = rowLookup rr s))

/-- The rows of the inner natural join: for each left row in order, each
matching right row in order, the left cells followed by the non-key right
cells. -/
def mergeRows (L R : Dataset) (shared : List String) :
    List (List (String × Value)) :=
  (toRows L).flatMap (fun lr =>
    ((toRows R).filter (fun rr => rowsMatch shared lr rr)).map (fun rr =>
      lr ++ rr.filter (fun p => !(shared.contains p.1))))

/-- `L.merge(R)` with pandas defaults: inner join on all shared column
names; raises `MergeError` when the two frames share no column name.  The
result columns are the left columns followed by the non-key right columns. -/
def merge (L R : Dataset) : Except Err Dataset :=
  if (sharedNames L R).isEmpty then Except.error Err.mergeError
  else
    Except.ok ⟨(L.names ++ R.names.filter (fun n => !(L.names.contains n))).map
      (fun n => (n, (mergeRows L R (sharedNames L R)).map
        (fun r => (rowLookup r n).getD Value.nan)))⟩

/-! ### C7: when `merge` raises -/

/-- C7 amended: `weather_station_mapping` raises exactly when the working
dataset and the mapping table share no column name; when a shared column
exists the merge always returns a dataset, even when the join eliminates
all rows (no empty-result error is raised). -/
theorem merge_error_iff (L R : Dataset) :
    (∃ e, merge L R = Except.error e) ↔ sharedNames L R = [] := by
  rw [merge]
  by_cases h : (sharedNames L R).isEmpty
  · rw [if_pos h]
    simp [List.isEmpty_iff.mp h]
  · rw [if_neg h]
    have h2 : sharedNames L R ≠ [] := fun he => h (by simp [he])
    simp [h2]

def c7L : Dataset := ⟨[("Field_ID", [Value.int 1])]⟩

def c7R : Dataset := ⟨[("Field_ID", [Value.int 2])]⟩

/-- C7 counterexample: the two frames share the column `Field_ID` but no
values match, the join eliminates all rows, and `merge` nevertheless
returns the empty joined dataset successfully instead of raising. -/
theorem merge_empty_result_counterexample :
    merge c7L c7R = Except.ok ⟨[("Field_ID", [])]⟩ ∧
    (⟨[("Field_ID", [])]⟩ : Dataset).numRows = 0 :=
  ⟨by rfl, by rfl⟩

/-- Witness for the amended C7: two frames without a shared column. -/
theorem merge_error_iff_witness :
    sharedNames ⟨[("A", [])]⟩ ⟨[("B", [])]⟩ = [] :=
  (merge_error_iff ⟨[("A", [])]⟩ ⟨[("B", [])]⟩).mp ⟨Err.mergeError, by rfl⟩

end MajiNdogo

namespace MajiNdogo

/-! ### C6: row count of the inner join -/

def c6L : Dataset := ⟨[("Field_ID", [Value.int 1])]⟩

def c6R : Dataset := ⟨[("Field_ID", [Value.int 1, Value.int 1])]⟩

/-- C6 counterexample: when the mapping table holds the shared key twice,
the inner join duplicates the matching left row, so the joined dataset has
MORE rows than the working dataset (2 > 1). -/
theorem merge_numRows_counterexample :
    merge c6L c6R = Except.ok ⟨[("Field_ID", [Value.int 1, Value.int 1])]⟩ ∧
    ¬((⟨[("Field_ID", [Value.int 1, Value.int 1])]⟩ : Dataset).numRows ≤
      c6L.numRows) :=
  ⟨by rfl, by decide⟩

theorem filter_length_le_one {α β : Type} (k : α → β) (p : α → Bool)
    (l : List α) (hnd : (l.map k).Nodup)
    (hp : ∀ a b, p a = true → p b = true → k a = k b) :
    (l.filter p).length ≤ 1 := by
  induction l with
  | nil => simp
  | cons a l ih =>
    simp only [List.map_cons, List.nodup_cons] at hnd
    by_cases hpa : p a = true
    · have hnil : l.filter p = [] := by
        rw [List.filter_eq_nil_iff]
        intro b hb hpb
        have hkb : k b ∈ l.map k := List.mem_map_of_mem k hb
        rw [← hp a b hpa hpb] at hkb
        exact hnd.1 hkb
      simp [List.filter_cons, hpa, hnil]
    · have hpa2 : p a = false := by
        cases hc : p a
        · rfl
        · exact absurd hc hpa
      simp only [List.filter_cons, hpa2, Bool.false_eq_true, if_false]
      exact ih hnd.2

theorem length_flatMap_le {α β : Type} (f : α → List β) (l : List α)
    (h : ∀ a ∈ l, (f a).length ≤ 1) :
    (l.flatMap f).length ≤ l.length := by
  induction l with
  | nil => simp
  | cons a l ih =>
    rw [List.flatMap_cons, List.length_append]
    have h1 := h a (List.mem_cons_self a l)
    have h2 := ih (fun b hb => h b (List.mem_cons_of_mem a hb))
    simp only [List.length_cons]
    omega

/-- C6 amended: the joined dataset has at most as many rows as the working
dataset provided the mapping table has no duplicate key combination on the
shared columns (with duplicate keys the inner join can multiply rows, see
the counterexample). -/
theorem merge_numRows_le (L R d : Dataset)
    (h : merge L R = Except.ok d)
    (hu : ((toRows R).map
      (fun r => (sharedNames L R).map (fun s => rowLookup r s))).Nodup) :
    d.numRows ≤ L.numRows := by
  rw [merge] at h
  by_cases hs : (sharedNames L R).isEmpty
  · rw [if_pos hs] at h
    simp at h
  · rw [if_neg hs] at h
    simp only [Except.ok.injEq] at h
    subst h
    have hLn : L.names ≠ [] := by
      intro hnil
      apply hs
      rw [sharedNames, hnil]
      rfl
    obtain ⟨n0, rest, hLcase⟩ := List.exists_cons_of_ne_nil hLn
    · have hnum : (⟨(L.names ++ R.names.filter (fun n => !(L.names.contains n))).map
          (fun n => (n, (mergeRows L R (sharedNames L R)).map
            (fun r => (rowLookup r n).getD Value.nan)))⟩ : Dataset).numRows =
          (mergeRows L R (sharedNames L R)).length := by
        rw [hLcase]
        simp [Dataset.numRows]
      rw [hnum, mergeRows]
      have hbound : ∀ lr ∈ toRows L,
          (((toRows R).filter (fun rr => rowsMatch (sharedNames L R) lr rr)).map
            (fun rr => lr ++ rr.filter
              (fun p => !((sharedNames L R).contains p.1)))).length ≤ 1 := by
        intro lr hlr
        rw [List.length_map]
        apply filter_length_le_one
          (fun r => (sharedNames L R).map (fun s => rowLookup r s)) _ _ hu
        intro a b hma hmb
        rw [rowsMatch] at hma hmb
        have ha2 := List.all_eq_true.mp hma
        have hb2 := List.all_eq_true.mp hmb
        apply List.map_congr_left
        intro s hsm
        have e1 := of_decide_eq_true (ha2 s hsm)
        have e2 := of_decide_eq_true (hb2 s hsm)
        rw [← e1]
        exact e2
      have hle := length_flatMap_le _ _ hbound
      have hLr : (toRows L).length = L.numRows := by
        rw [toRows]
        simp
      rw [hLr] at hle
      exact hle

/-- Witness for the amended C6: a two-row working dataset joined with a
one-row mapping table with unique keys. -/
theorem merge_numRows_le_witness :
    (⟨[("K", [Value.int 1]), ("S", [Value.int 7])]⟩ : Dataset).numRows ≤
      (⟨[("K", [Value.int 1, Value.int 2])]⟩ : Dataset).numRows :=
  merge_numRows_le ⟨[("K", [Value.int 1, Value.int 2])]⟩
    ⟨[("K", [Value.int 1]), ("S", [Value.int 7])]⟩
    ⟨[("K", [Value.int 1]), ("S", [Value.int 7])]⟩ (by rfl) (by decide)

end MajiNdogo

namespace MajiNdogo

/-! ### C10: `process` and the final `drop(columns="Unnamed: 0")` -/

/-- `DataFrame.drop(columns=n)` with the default `errors="raise"`: removes
the column when present, raises `KeyError` when absent. -/
def dropColumn (df : Dataset) (n : String) : Except Err Dataset :=
  if n ∈ df.names then Except.ok ⟨df.cols.filter (fun c => !(c.1 == n))⟩
  else Except.error Err.keyError

/-- `FieldDataProcessor.process` up to and excluding the final drop:
ingest, rename, apply corrections with the default column names, join the
weather-mapping table. -/
def process_before_drop (pair : String × String)
    (table : List (String × String)) (raw web : Dataset) : Except Err Dataset :=
  match query_data raw with
  | Except.error e => Except.error e
  | Except.ok d =>
    match apply_corrections table "Crop_type" "Elevation"
        (rename_columns pair.1 pair.2 d) with
    | Except.error e => Except.error e
    | Except.ok d2 => merge d2 web

/-- `FieldDataProcessor.process`: the full pipeline followed by
`self.df.drop(columns="Unnamed: 0")`. -/
def process (pair : String × String) (table : List (String × String))
    (raw web : Dataset) : Except Err Dataset :=
  match process_before_drop pair table raw web with
  | Except.error e => Except.error e
  | Except.ok d3 => dropColumn d3 "Unnamed: 0"

theorem process_eq_of_ok (pair : String × String)
    (table : List (String × String)) (raw web : Dataset) (J : Dataset)
    (h : process_before_drop pair table raw web = Except.ok J) :
    process pair table raw web = dropColumn J "Unnamed: 0" := by
  unfold process
  rw [h]

/-- C10: whenever the pipeline reaches the final step with joined dataset
`J`, the column `"Unnamed: 0"` is dropped unconditionally: if present in
`J` the final output exists and does not contain it; if absent, `process`
raises `KeyError` instead of returning a dataset. -/
theorem process_drops_unnamed (pair : String × String)
    (table : List (String × String)) (raw web : Dataset) (J : Dataset)
    (h : process_before_drop pair table raw web = Except.ok J) :
    ("Unnamed: 0" ∈ J.names →
      ∃ out, process pair table raw web = Except.ok out ∧
        "Unnamed: 0" ∉ out.names) ∧
    ("Unnamed: 0" ∉ J.names →
      process pair table raw web = Except.error Err.keyError) := by
  constructor
  · intro hmem
    refine ⟨⟨J.cols.filter (fun c => !(c.1 == "Unnamed: 0"))⟩, ?_, ?_⟩
    · rw [process_eq_of_ok pair table raw web J h, dropColumn, if_pos hmem]
    · rw [Dataset.names]
      intro hmem2
      rw [List.mem_map] at hmem2
      rcases hmem2 with ⟨c, hcf, hcn⟩
      rw [List.mem_filter] at hcf
      rw [hcn] at hcf
      simp at hcf
  · intro hnot
    rw [process_eq_of_ok pair table raw web J h, dropColumn, if_neg hnot]

def c10pair : String × String := ("Field_ID", "Plot_ID")

def c10table : List (String × String) := [("cassaval", "cassava")]

def c10raw : Dataset :=
  ⟨[("Unnamed: 0", [Value.int 0]), ("Field_ID", [Value.int 1]),
    ("Plot_ID", [Value.int 2]), ("Elevation", [Value.int (-430)]),
    ("Crop_type", [Value.str " cassaval "])]⟩

def c10web : Dataset :=
  ⟨[("Field_ID", [Value.int 2]), ("Rainfall", [Value.int 5])]⟩

def c10J : Dataset :=
  ⟨[("Unnamed: 0", [Value.int 0]), ("Plot_ID", [Value.int 1]),
    ("Field_ID", [Value.int 2]), ("Elevation", [Value.int 430]),
    ("Crop_type", [Value.str "cassaval"]), ("Rainfall", [Value.int 5])]⟩

/-- Witness for C10: a full concrete pipeline run in which the joined
dataset carries the artifact column, and the final output does not. -/
theorem process_drops_unnamed_witness :
    ∃ out, process c10pair c10table c10raw c10web = Except.ok out ∧
      "Unnamed: 0" ∉ out.names :=
  (process_drops_unnamed c10pair c10table c10raw c10web c10J (by rfl)).1
    (by decide)

end MajiNdogo
